import Mathlib

/-!
Verification of the reklog-storage client library.

Two variants are embedded from the source:

* `Http` — the API-key, HTTP-backed `RekLogStorage` class (axios based):
  constructor starts a one-shot asynchronous key validation, every CRUD
  operation awaits that memoized validation before issuing its own request.
* `Mongo` — the driver-backed `RekLogStorage` class (`src/index.js`):
  explicit connect/disconnect window, operations go through `getCollection`.

Asynchrony is embedded with explicit traces: each function returns, besides
its result, the list of `Step`s (validation start, awaits, store requests)
it performs, and the one-shot promise is given an identity (`promiseId`)
so that "awaits the same memoized computation" is expressible.
-/

/-- A JavaScript value, as far as the request/response shapes need:
`undefined` models the JS undefined value. Query / options / update documents are
carried through the client verbatim, so they are just values of this type. -/
inductive JSVal where
  | undefined : JSVal
  | vstr : String → JSVal
  | vnum : Int → JSVal
  | vbool : Bool → JSVal
  | vobj : List (String × JSVal) → JSVal

/-- JS `a || b` where `a` is an optional string: `undefined` and the empty
string are falsy, so they fall through to the default. -/
def jsOrS : Option String → String → String
  | some s, d => if s = "" then d else s
  | none, d => d

/-- Field access `v.k` on a JS value: `undefined` when absent or when the
value is not an object. -/
def jsField : JSVal → String → JSVal
  | .vobj l, k =>
    match l.find? (fun p => p.fst == k) with
    | some p => p.snd
    | none => .undefined
  | _, _ => .undefined

/-- Lookup of a field in a request body (a JS object literal, embedded as an
ordered list of key/value pairs). -/
def bodyField (l : List (String × JSVal)) (k : String) : Option JSVal :=
  (l.find? (fun p => p.fst == k)).map Prod.snd

namespace Http

/-- Built-in default backing-store address (source: constructor). -/
def defaultApiUrl : String := "https://api.reklog.com/api"

/-- `.replace(/\/$/, "")` on the chosen URL: the regex matches one "/" at the
very end, so exactly one trailing slash is removed when present. -/
def stripTrailingSlash (s : String) : String :=
  if s.data.getLast? = some '/' then ⟨s.data.dropLast⟩ else s

/-- The recognized constructor options of the HTTP-backed class.
The source destructures only `options.apiUrl`; `environment` is listed here
because the documentation and the example scripts pass it. -/
structure HttpOptions where
  apiUrl : Option String
  environment : Option String

/-- Instance state of the HTTP-backed client: `this.apiKey`, `this.apiUrl`,
`this.storageId`, `this.databaseName`, `this._validated`, and the identity of
the memoized `this._validationPromise`. -/
structure Client where
  apiKey : String
  apiUrl : String
  storageId : Option String
  databaseName : Option String
  validated : Bool
  promiseId : Nat

/-- An HTTP request: URL and JSON body (`axios.post(url, body)`). -/
structure Request where
  url : String
  body : List (String × JSVal)

/-- Observable steps of an execution: starting the one-shot validation call
(with the promise identity and the request it sends), awaiting the memoized
validation promise, and sending a gated store request. -/
inductive Step where
  | startValidation (pid : Nat) (r : Request)
  | awaitValidation (pid : Nat)
  | storeRequest (r : Request)

/-- The request `_validateKey` sends: `POST {apiUrl}/storages/validate-key`
with body `{ apiKey: this.apiKey }` — and nothing else. -/
def validationRequest (c : Client) : Request :=
  ⟨c.apiUrl ++ "/storages/validate-key", [("apiKey", JSVal.vstr c.apiKey)]⟩

/-- The constructor. `!apiKey` (missing or empty) throws synchronously with
"API key is required" before anything else runs; otherwise the state is set
up and `this._validationPromise = this._validateKey()` starts the one-shot
validation without awaiting it (the emitted trace records the start, and the
client is returned with `validated = false`: the outcome is not waited on). -/
def construct (apiKey : Option String) (options : HttpOptions) :
    Except String Client × List Step :=
  match apiKey with
  | none => (.error "API key is required", [])
  | some k =>
    if k = "" then (.error "API key is required", [])
    else
      let c : Client :=
        ⟨k, stripTrailingSlash (jsOrS options.apiUrl defaultApiUrl),
          none, none, false, 0⟩
      (.ok c, [Step.startValidation 0 (validationRequest c)])

/-- What the network answers to the validation call: either a response
`{ success, data: { storageId, databaseName } }` or an axios error with an
optional `response.data.message` and a message. -/
inductive VNet where
  | resp (success : Bool) (storageId databaseName : String)
  | err (respMsg : Option String) (msg : String)

/-- Outcome of `_validateKey`: on `success` the resolved identity, otherwise
the rejection message. `success: false` raises `Invalid API key` which the
catch wraps; an axios error is wrapped as
`API key validation failed: (error.response?.data?.message || error.message)`. -/
def validateKeyOutcome : VNet → Except String (String × String)
  | .resp true sid db => .ok (sid, db)
  | .resp false _ _ => .error ("API key validation failed: " ++ "Invalid API key")
  | .err respMsg msg => .error ("API key validation failed: " ++ jsOrS respMsg msg)

/-- Effect of the settled validation on the instance: on success `storageId`,
`databaseName` and `_validated` are assigned; on failure nothing is written. -/
def settleClient (c : Client) : Except String (String × String) → Client
  | .ok (sid, db) =>
    { c with storageId := some sid, databaseName := some db, validated := true }
  | .error _ => c

/-- The public gated operations of the HTTP-backed client, with the
arguments each one takes in the source. Query, options, documents and update
documents are passed through verbatim as JS values. -/
inductive OpCall where
  | get (collection : String) (query options : JSVal)
  | getAll (collection : String) (options : JSVal)
  | insert (collection : String) (documents : JSVal)
  | update (collection : String) (query upd : JSVal)
  | delete (collection : String) (query : JSVal)

/-- The request each operation sends, straight from the source bodies:
every body starts with `apiKey: this.apiKey`. -/
def opRequest (c : Client) : OpCall → Request
  | .get coll q o =>
    ⟨c.apiUrl ++ "/storages/data/find",
      [("apiKey", JSVal.vstr c.apiKey), ("collection", JSVal.vstr coll),
        ("query", q), ("options", o)]⟩
  | .getAll coll o =>
    ⟨c.apiUrl ++ "/storages/data/findAll",
      [("apiKey", JSVal.vstr c.apiKey), ("collection", JSVal.vstr coll),
        ("options", o)]⟩
  | .insert coll docs =>
    ⟨c.apiUrl ++ "/storages/data/insert",
      [("apiKey", JSVal.vstr c.apiKey), ("collection", JSVal.vstr coll),
        ("documents", docs)]⟩
  | .update coll q u =>
    ⟨c.apiUrl ++ "/storages/data/update",
      [("apiKey", JSVal.vstr c.apiKey), ("collection", JSVal.vstr coll),
        ("query", q), ("update", u)]⟩
  | .delete coll q =>
    ⟨c.apiUrl ++ "/storages/data/delete",
      [("apiKey", JSVal.vstr c.apiKey), ("collection", JSVal.vstr coll),
        ("query", q)]⟩

/-- The per-operation prefix the catch block puts in front of the failure:
`Get failed: `, `Get all failed: `, ... -/
def opFailPrefix : OpCall → String
  | .get _ _ _ => "Get failed: "
  | .getAll _ _ => "Get all failed: "
  | .insert _ _ => "Insert failed: "
  | .update _ _ _ => "Update failed: "
  | .delete _ _ => "Delete failed: "

/-- The generic message used when a non-success response carries no message. -/
def opGenericMsg : OpCall → String
  | .get _ _ _ => "Failed to get documents"
  | .getAll _ _ => "Failed to get documents"
  | .insert _ _ => "Failed to insert documents"
  | .update _ _ _ => "Failed to update documents"
  | .delete _ _ => "Failed to delete documents"

/-- Result extraction from a success response: `get`/`getAll` return
`response.data.data.documents`, the others return `response.data.data`. -/
def opExtract : OpCall → JSVal → JSVal
  | .get _ _ _, d => jsField d "documents"
  | .getAll _ _, d => jsField d "documents"
  | _, d => d

/-- What the network answers to a gated operation request. -/
inductive OpNet where
  | resp (success : Bool) (message : Option String) (data : JSVal)
  | err (respMsg : Option String) (msg : String)

/-- `_ensureValidated`: `if (!this._validated) await this._validationPromise`.
The steps it performs: nothing when the flag is already set, otherwise one
await of the memoized promise. -/
def ensureSteps (c : Client) : List Step :=
  if c.validated then [] else [Step.awaitValidation c.promiseId]

/-- The outcome `_ensureValidated` observes, given the settlement `vout` of
the memoized promise: the fast path skips the await when the flag is set. -/
def ensureOutcome (c : Client) (vout : Except String Unit) : Except String Unit :=
  if c.validated then .ok () else vout

/-- One gated operation, translated from the source method bodies: first
`await this._ensureValidated()` inside the try; a rejection there is caught
and rethrown as `{prefix}{error.message}` (a locally thrown Error has no
`response` field) with no store request ever sent. Otherwise the request is
sent; a `success` response yields the extracted data; a non-success response
throws `response.data.message || {generic}` which the catch wraps; an axios
error is wrapped as `{prefix}{error.response?.data?.message || error.message}`. -/
def opRun (c : Client) (vout : Except String Unit) (op : OpCall) (net : OpNet) :
    List Step × Except String JSVal :=
  match ensureOutcome c vout with
  | .error e => (ensureSteps c, .error (opFailPrefix op ++ e))
  | .ok _ =>
    (ensureSteps c ++ [Step.storeRequest (opRequest c op)],
      match net with
      | .resp true _ data => .ok (opExtract op data)
      | .resp false msg _ => .error (opFailPrefix op ++ jsOrS msg (opGenericMsg op))
      | .err respMsg msg => .error (opFailPrefix op ++ jsOrS respMsg msg))

/-- The steps a gated operation performs. -/
def opTrace (c : Client) (vout : Except String Unit) (op : OpCall) (net : OpNet) :
    List Step :=
  (opRun c vout op net).fst

/-- The result a gated operation delivers. -/
def opResult (c : Client) (vout : Except String Unit) (op : OpCall) (net : OpNet) :
    Except String JSVal :=
  (opRun c vout op net).snd

/-- Whole-instance state: the client fields plus the settlement status of the
memoized validation promise (`none` while pending). -/
structure Sys where
  c : Client
  resolved : Option (Except String Unit)

/-- The state right after the constructor returned: promise still pending. -/
def initSys (c : Client) : Sys := ⟨c, none⟩

/-- Events that can happen to an instance after construction: the validation
call completes (with some network answer), or a public operation runs. -/
inductive SysEvent where
  | settle (net : VNet)
  | runOp (op : OpCall) (net : OpNet)

/-- One event. A settlement of an already settled promise changes nothing
(a promise settles once). An operation while the promise is pending suspends
at the await and touches nothing; once settled it runs `opRun`, which never
writes any instance field. -/
def sysStep (s : Sys) : SysEvent → Sys × List Step
  | .settle net =>
    match s.resolved with
    | some _ => (s, [])
    | none =>
      let out := validateKeyOutcome net
      (⟨settleClient s.c out, some (out.map fun _ => ())⟩, [])
  | .runOp op net =>
    match s.resolved with
    | none => (s, ensureSteps s.c)
    | some vout => (s, opTrace s.c vout op net)

/-- Run a sequence of events, concatenating the emitted steps. -/
def sysRun (s : Sys) : List SysEvent → Sys × List Step
  | [] => (s, [])
  | e :: es =>
    let p := sysStep s e
    let q := sysRun p.fst es
    (q.fst, p.snd ++ q.snd)

/-- Number of validation starts in a trace. -/
def countStart (t : List Step) : Nat :=
  t.countP (fun s => match s with | .startValidation _ _ => true | _ => false)

end Http

namespace Mongo

/-- A field value inside a stored record. `oid` is an ObjectId. -/
inductive Val where
  | vstr : String → Val
  | vnum : Int → Val
  | vbool : Bool → Val
  | oid : String → Val
deriving DecidableEq

/-- A stored record: an ordered list of named fields. -/
abbrev Doc := List (String × Val)

/-- The named collections of the connected database. -/
abbrev DbContent := List (String × List Doc)

/-- Instance state of the driver-backed client (`src/index.js`):
`this.connectionString`, `this.client` and `this.db` — both `null` until
`connect()` and reset to `null` by `disconnect()`. -/
structure Driver where
  connectionString : String
  client : Option Unit
  db : Option DbContent

/-- The driver constructor: `!connectionString` (missing or empty) throws
"Connection string is required"; otherwise `client` and `db` start at null. -/
def driverConstruct (connectionString : Option String) : Except String Driver :=
  match connectionString with
  | none => .error "Connection string is required"
  | some cs =>
    if cs = "" then .error "Connection string is required"
    else .ok ⟨cs, none, none⟩

/-- A successful `connect()`: the Mongo client is created and `this.db` is
bound; the database content is what the external server holds. -/
def connect (d : Driver) (content : DbContent) : Driver :=
  { d with client := some (), db := some content }

/-- Observable driver/database invocations. -/
inductive DEvent where
  | dbCall (method : String)
  | close

/-- `disconnect()`: `if (this.client)` close and null the fields, otherwise
do nothing at all. -/
def disconnect (d : Driver) : Driver × List DEvent :=
  match d.client with
  | some _ => (⟨d.connectionString, none, none⟩, [DEvent.close])
  | none => (d, [])

/-- The error message `getCollection` (and the direct `this.db` checks in
`listCollections` / `stats`) throws outside the connected window. -/
def notConnectedMsg : String := "Not connected to MongoDB. Call connect() first."

/-- The documents of a named collection (a missing collection reads as
empty, as it does through the driver). -/
def lookupColl (content : DbContent) (name : String) : List Doc :=
  match content.find? (fun p => p.fst == name) with
  | some p => p.snd
  | none => []

/-- Write back a collection the driver modified: the existing entry is
replaced; update/delete on a collection that does not exist modify nothing
and create nothing. -/
def setColl : DbContent → String → List Doc → DbContent
  | [], _, _ => []
  | p :: rest, name, docs =>
    if p.fst = name then (name, docs) :: rest else p :: setColl rest name docs

/-- Write back a collection for an insert: inserting into a collection that
does not exist yet creates it. -/
def setCollUpsert : DbContent → String → List Doc → DbContent
  | [], name, docs => [(name, docs)]
  | p :: rest, name, docs =>
    if p.fst = name then (name, docs) :: rest else p :: setCollUpsert rest name docs

/-- Remove a collection (for `dropCollection`). -/
def removeColl : DbContent → String → DbContent
  | [], _ => []
  | p :: rest, name => if p.fst = name then rest else p :: removeColl rest name

/-- Modelled from the spec: the backing store assigns an identifier to the
inserted record (`insert(target, documents) -> { insertedIds }`); the MongoDB
server itself is an external collaborator absent from the repository. -/
def insertOneStore (docs : List Doc) (d : Doc) : List Doc × Doc :=
  let withId := ("_id", Val.oid (toString docs.length)) :: d
  (docs ++ [withId], withId)

/-- Modelled from the spec: multi-document insert assigns identifiers by
input position. -/
def insertManyStore (docs : List Doc) (ds : List Doc) : List Doc × List Doc :=
  let withIds := ds.enum.map
    (fun p => ("_id", Val.oid (toString (docs.length + p.fst))) :: p.snd)
  (docs ++ withIds, withIds)

/-- Modelled from the spec: `update(target, filter, updateOps) ->
{ matchedCount, modifiedCount }` — every matching record is rewritten,
`matchedCount` counts the matches, `modifiedCount` those actually changed;
a filter matching zero records returns zero counts. The filter and the
update document are interpreted by the store, so they are embedded as a
predicate and a rewriting function on records. -/
def updateManyStore (docs : List Doc) (filter : Doc → Bool) (applyU : Doc → Doc) :
    List Doc × Nat × Nat :=
  ((docs.map fun d => if filter d then applyU d else d),
    (docs.filter filter).length,
    (docs.filter fun d => filter d && decide (applyU d ≠ d)).length)

/-- Modelled from the spec: `updateOne` rewrites only the first match. -/
def updateOneStore : List Doc → (Doc → Bool) → (Doc → Doc) → List Doc × Nat × Nat
  | [], _, _ => ([], 0, 0)
  | d :: rest, filter, applyU =>
    if filter d then
      (applyU d :: rest, 1, if applyU d ≠ d then 1 else 0)
    else
      let r := updateOneStore rest filter applyU
      (d :: r.fst, r.snd.fst, r.snd.snd)

/-- Modelled from the spec: `delete(target, filter) -> { deletedCount }` —
matching records are removed and counted; zero matches is not an error. -/
def deleteManyStore (docs : List Doc) (filter : Doc → Bool) : List Doc × Nat :=
  ((docs.filter fun d => !(filter d)), (docs.filter filter).length)

/-- Modelled from the spec: `deleteOne` removes only the first match. -/
def deleteOneStore : List Doc → (Doc → Bool) → List Doc × Nat
  | [], _ => ([], 0)
  | d :: rest, filter =>
    if filter d then (rest, 1)
    else
      let r := deleteOneStore rest filter
      (d :: r.fst, r.snd)

/-- The filter `{ _id: new ObjectId(id) }` used by the ById methods. -/
def idFilter (id : String) : Doc → Bool :=
  fun doc => (doc.find? (fun p => p.fst == "_id")).map Prod.snd == some (Val.oid id)

/-- Every public method of the driver-backed class, with the arguments it
takes. Filters, update documents, aggregation pipelines and cursor option
shaping are interpreted by the external driver/server, so they are embedded
as functions on records; `createIndex` and `stats` carry the reply of the
external server. -/
inductive DriverOp where
  | insert (coll : String) (doc : Doc)
  | insertMany (coll : String) (docs : List Doc)
  | find (coll : String) (filter : Doc → Bool) (shape : List Doc → List Doc)
  | findOne (coll : String) (filter : Doc → Bool)
  | findById (coll : String) (id : String)
  | update (coll : String) (filter : Doc → Bool) (applyU : Doc → Doc)
  | updateOne (coll : String) (filter : Doc → Bool) (applyU : Doc → Doc)
  | updateById (coll : String) (id : String) (applyU : Doc → Doc)
  | delete (coll : String) (filter : Doc → Bool)
  | deleteOne (coll : String) (filter : Doc → Bool)
  | deleteById (coll : String) (id : String)
  | count (coll : String) (filter : Doc → Bool)
  | aggregate (coll : String) (pipeline : List Doc → List Doc)
  | createIndex (coll : String) (keys : Doc) (idxName : String)
  | dropCollection (coll : String)
  | listCollections
  | stats (reply : Doc)

/-- Results the driver-backed methods return. -/
inductive DriverResult where
  | doc : Doc → DriverResult
  | docs : List Doc → DriverResult
  | optDoc : Option Doc → DriverResult
  | counts (matchedCount modifiedCount : Nat) : DriverResult
  | num : Nat → DriverResult
  | name : String → DriverResult
  | names : List String → DriverResult
  | flag : Bool → DriverResult

/-- `findOne` body, shared with `findById` (whose source body is
`findOne(collectionName, { _id: new ObjectId(id) })`). -/
def findOneRun (d : Driver) (coll : String) (filter : Doc → Bool) :
    Except String DriverResult × List DEvent × Driver :=
  match d.db with
  | none => (.error notConnectedMsg, [], d)
  | some content =>
    (.ok (.optDoc ((lookupColl content coll).find? filter)),
      [DEvent.dbCall "findOne"], d)

/-- `updateOne` body, shared with `updateById`. -/
def updateOneRun (d : Driver) (coll : String) (filter : Doc → Bool)
    (applyU : Doc → Doc) : Except String DriverResult × List DEvent × Driver :=
  match d.db with
  | none => (.error notConnectedMsg, [], d)
  | some content =>
    let r := updateOneStore (lookupColl content coll) filter applyU
    (.ok (.counts r.snd.fst r.snd.snd), [DEvent.dbCall "updateOne"],
      { d with db := some (setColl content coll r.fst) })

/-- `deleteOne` body, shared with `deleteById`. -/
def deleteOneRun (d : Driver) (coll : String) (filter : Doc → Bool) :
    Except String DriverResult × List DEvent × Driver :=
  match d.db with
  | none => (.error notConnectedMsg, [], d)
  | some content =>
    let r := deleteOneStore (lookupColl content coll) filter
    (.ok (.num r.snd), [DEvent.dbCall "deleteOne"],
      { d with db := some (setColl content coll r.fst) })

/-- One driver-backed method call. Every method first goes through
`getCollection` (or checks `this.db` directly), which throws the
not-connected error before any driver invocation when `this.db` is null.
The connected branches shape the driver results exactly as the source does:
`insert` returns the document with its `_id`, `update`/`updateOne` return
`{ matchedCount, modifiedCount }`, `delete`/`deleteOne` return the bare
`deletedCount`, `dropCollection` returns true, `listCollections` maps to
names. -/
def runDriverOp (d : Driver) : DriverOp → Except String DriverResult × List DEvent × Driver
  | .insert coll doc =>
    match d.db with
    | none => (.error notConnectedMsg, [], d)
    | some content =>
      let r := insertOneStore (lookupColl content coll) doc
      (.ok (.doc r.snd), [DEvent.dbCall "insertOne"],
        { d with db := some (setCollUpsert content coll r.fst) })
  | .insertMany coll ds =>
    match d.db with
    | none => (.error notConnectedMsg, [], d)
    | some content =>
      let r := insertManyStore (lookupColl content coll) ds
      (.ok (.docs r.snd), [DEvent.dbCall "insertMany"],
        { d with db := some (setCollUpsert content coll r.fst) })
  | .find coll filter shape =>
    match d.db with
    | none => (.error notConnectedMsg, [], d)
    | some content =>
      (.ok (.docs (shape ((lookupColl content coll).filter filter))),
        [DEvent.dbCall "find"], d)
  | .findOne coll filter => findOneRun d coll filter
  | .findById coll id => findOneRun d coll (idFilter id)
  | .update coll filter applyU =>
    match d.db with
    | none => (.error notConnectedMsg, [], d)
    | some content =>
      let r := updateManyStore (lookupColl content coll) filter applyU
      (.ok (.counts r.snd.fst r.snd.snd), [DEvent.dbCall "updateMany"],
        { d with db := some (setColl content coll r.fst) })
  | .updateOne coll filter applyU => updateOneRun d coll filter applyU
  | .updateById coll id applyU => updateOneRun d coll (idFilter id) applyU
  | .delete coll filter =>
    match d.db with
    | none => (.error notConnectedMsg, [], d)
    | some content =>
      let r := deleteManyStore (lookupColl content coll) filter
      (.ok (.num r.snd), [DEvent.dbCall "deleteMany"],
        { d with db := some (setColl content coll r.fst) })
  | .deleteOne coll filter => deleteOneRun d coll filter
  | .deleteById coll id => deleteOneRun d coll (idFilter id)
  | .count coll filter =>
    match d.db with
    | none => (.error notConnectedMsg, [], d)
    | some content =>
      (.ok (.num ((lookupColl content coll).filter filter).length),
        [DEvent.dbCall "countDocuments"], d)
  | .aggregate coll pipeline =>
    match d.db with
    | none => (.error notConnectedMsg, [], d)
    | some content =>
      (.ok (.docs (pipeline (lookupColl content coll))),
        [DEvent.dbCall "aggregate"], d)
  | .createIndex _ _ idxName =>
    match d.db with
    | none => (.error notConnectedMsg, [], d)
    | some _ => (.ok (.name idxName), [DEvent.dbCall "createIndex"], d)
  | .dropCollection coll =>
    match d.db with
    | none => (.error notConnectedMsg, [], d)
    | some content =>
      (.ok (.flag true), [DEvent.dbCall "drop"],
        { d with db := some (removeColl content coll) })
  | .listCollections =>
    match d.db with
    | none => (.error notConnectedMsg, [], d)
    | some content =>
      (.ok (.names (content.map Prod.fst)), [DEvent.dbCall "listCollections"], d)
  | .stats reply =>
    match d.db with
    | none => (.error notConnectedMsg, [], d)
    | some _ => (.ok (.doc reply), [DEvent.dbCall "stats"], d)

end Mongo

/-- A concrete freshly constructed client (validation still pending),
shared by the concrete instantiations below. -/
def wClient : Http.Client :=
  ⟨"k", "https://api.reklog.com/api", none, none, false, 0⟩

/-- A concrete client whose validation has succeeded. -/
def wClientV : Http.Client :=
  ⟨"k", "https://api.reklog.com/api", none, none, true, 0⟩

/-- Every step `_ensureValidated` performs is an await of the memoized
validation promise. -/
theorem mem_ensureSteps {c : Http.Client} {s : Http.Step}
    (h : s ∈ Http.ensureSteps c) : s = Http.Step.awaitValidation c.promiseId := by
  unfold Http.ensureSteps at h
  split at h
  · exact absurd h (List.not_mem_nil s)
  · simpa using h

/-- C5: constructing the HTTP-backed client with an empty or missing
credential fails synchronously with the configuration error
"API key is required", and the emitted trace is empty: no validation request
(and no other network call) is ever started. -/
theorem c5_empty_key_synchronous_failure (k : Option String)
    (opts : Http.HttpOptions) (hk : k = none ∨ k = some "") :
    (Http.construct k opts).fst = .error "API key is required" ∧
    (Http.construct k opts).snd = [] := by
  rcases hk with h | h <;> subst h <;> simp [Http.construct]

/-- Concrete instantiation of `c5_empty_key_synchronous_failure` at the
empty credential. -/
theorem c5_empty_key_synchronous_failure_witness :
    ((some "" : Option String) = none ∨ (some "" : Option String) = some "") ∧
    ((Http.construct (some "") ⟨none, none⟩).fst = .error "API key is required" ∧
      (Http.construct (some "") ⟨none, none⟩).snd = []) :=
  ⟨Or.inr rfl,
    c5_empty_key_synchronous_failure (some "") ⟨none, none⟩ (Or.inr rfl)⟩

/-- C4: the validation handshake does NOT send the environment tag. With a
client constructed as `new RekLogStorage("key-123", { environment:
"production" })`, the one request the constructor starts goes to the
validation entry point with body field names exactly `["apiKey"]` — the
supplied environment is never read and never transmitted, contrary to the
spec (and to the README of the repository, which documents the environment
as selecting the per-environment database). -/
theorem c4_validation_omits_environment :
    (Http.construct (some "key-123")
        { apiUrl := none, environment := some "production" }).snd.map
      (fun s => match s with
        | Http.Step.startValidation _ r => (r.url, r.body.map Prod.fst)
        | _ => ("", [])) =
    [("https://api.reklog.com/api/storages/validate-key", ["apiKey"])] := by
  rfl

/-- C3: once the memoized validation promise has rejected with message `m`,
every gated operation fails with `opFailPrefix op ++ m` — the original
failure reason `m` is carried verbatim (as the suffix of the surfaced
message, behind the per-operation prefix), never replaced by a generic
message, and it is the same `m` for every operation. -/
theorem c3_failure_reason_preserved (c : Http.Client) (m : String)
    (op : Http.OpCall) (net : Http.OpNet) (hv : c.validated = false) :
    Http.opResult c (.error m) op net = .error (Http.opFailPrefix op ++ m) ∧
    ∃ p, Http.opResult c (.error m) op net = .error (p ++ m) := by
  have h : Http.opResult c (.error m) op net
      = .error (Http.opFailPrefix op ++ m) := by
    simp [Http.opResult, Http.opRun, Http.ensureOutcome, hv]
  exact ⟨h, ⟨Http.opFailPrefix op, h⟩⟩

/-- Concrete instantiation of `c3_failure_reason_preserved`: a client whose
validation rejected with the message the source produces for a rejected key. -/
theorem c3_failure_reason_preserved_witness :
    wClient.validated = false ∧
    (Http.opResult wClient (.error "API key validation failed: Invalid API key")
        (.get "users" (JSVal.vobj []) (JSVal.vobj []))
        (.resp true none JSVal.undefined)
      = .error (Http.opFailPrefix (.get "users" (JSVal.vobj []) (JSVal.vobj []))
          ++ "API key validation failed: Invalid API key") ∧
    ∃ p, Http.opResult wClient
        (.error "API key validation failed: Invalid API key")
        (.get "users" (JSVal.vobj []) (JSVal.vobj []))
        (.resp true none JSVal.undefined) = .error (p ++ "API key validation failed: Invalid API key")) :=
  ⟨rfl, c3_failure_reason_preserved wClient
    "API key validation failed: Invalid API key"
    (.get "users" (JSVal.vobj []) (JSVal.vobj []))
    (.resp true none JSVal.undefined) rfl⟩

/-- C9: every store request a gated operation ever emits is exactly the
request built by `opRequest`, whose body carries the raw credential under the
field `apiKey` — so the credential is transmitted on every single operation,
not only during the one-time validation handshake. -/
theorem c9_apikey_in_every_request (c : Http.Client) (vout : Except String Unit)
    (op : Http.OpCall) (net : Http.OpNet) (r : Http.Request)
    (hr : Http.Step.storeRequest r ∈ Http.opTrace c vout op net) :
    r = Http.opRequest c op ∧
    bodyField r.body "apiKey" = some (JSVal.vstr c.apiKey) := by
  have hreq : r = Http.opRequest c op := by
    unfold Http.opTrace Http.opRun at hr
    rcases h : Http.ensureOutcome c vout with e | u
    · rw [h] at hr
      exact absurd (mem_ensureSteps hr) (by intro hx; cases hx)
    · rw [h] at hr
      rcases List.mem_append.mp hr with hl | hrr
      · exact absurd (mem_ensureSteps hl) (by intro hx; cases hx)
      · have := List.mem_singleton.mp hrr
        injection this with h'
  refine ⟨hreq, ?_⟩
  subst hreq
  cases op <;> rfl

/-- Concrete instantiation of `c9_apikey_in_every_request`: a validated
client issues an insert; the emitted request is in the trace and its body
carries the credential. -/
theorem c9_apikey_in_every_request_witness :
    (Http.Step.storeRequest (Http.opRequest wClientV (.insert "users" JSVal.undefined))
      ∈ Http.opTrace wClientV (.ok ()) (.insert "users" JSVal.undefined)
        (.resp true none JSVal.undefined)) ∧
    (Http.opRequest wClientV (.insert "users" JSVal.undefined)
        = Http.opRequest wClientV (.insert "users" JSVal.undefined) ∧
      bodyField (Http.opRequest wClientV (.insert "users" JSVal.undefined)).body "apiKey"
        = some (JSVal.vstr wClientV.apiKey)) :=
  ⟨List.mem_singleton.mpr rfl,
    c9_apikey_in_every_request wClientV (.ok ()) (.insert "users" JSVal.undefined)
      (.resp true none JSVal.undefined) _ (List.mem_singleton.mpr rfl)⟩

/-- C10 counterexample: supplying the EMPTY string as the endpoint override
does not store the stripped override — because of JS truthiness
(`options.apiUrl || default`), the built-in default address is stored
instead. So "a single trailing slash is stripped from the supplied endpoint
override before it is stored" fails for the supplied override `""`. -/
theorem c10_counterexample :
    (Http.construct (some "k")
        { apiUrl := some "", environment := none }).fst.map Http.Client.apiUrl
      = .ok "https://api.reklog.com/api" ∧
    Http.stripTrailingSlash "" = "" ∧
    ("https://api.reklog.com/api" : String) ≠ "" := by
  refine ⟨rfl, rfl, by decide⟩

/-- C10 (amended): for every constructor call with a NON-EMPTY endpoint
override, a single trailing "/" (if present) is stripped from the override
before it is stored; when no override (or an empty-string override, which JS
treats as absent) is supplied, the built-in default address is used; and
every request URL — the validation request and each gated operation request —
is formed by appending a path beginning with "/" to the stored base. -/
theorem c10_url_base_amended (k u : String) (env : Option String)
    (c : Http.Client) (hk : k ≠ "") (hu : u ≠ "")
    (hc : (Http.construct (some k) ⟨some u, env⟩).fst = .ok c) :
    c.apiUrl = Http.stripTrailingSlash u ∧
    (∀ c', (Http.construct (some k) ⟨none, env⟩).fst = .ok c' →
      c'.apiUrl = Http.defaultApiUrl) ∧
    (∀ op, ∃ p, (Http.opRequest c op).url = c.apiUrl ++ p ∧
      p.data.head? = some '/') ∧
    (Http.validationRequest c).url = c.apiUrl ++ "/storages/validate-key" ∧
    ("/storages/validate-key" : String).data.head? = some '/' := by
  have hbase : c.apiUrl = Http.stripTrailingSlash u := by
    rw [Http.construct, if_neg hk] at hc
    injection hc with h
    subst h
    simp [jsOrS, hu]
  refine ⟨hbase, ?_, ?_, rfl, by decide⟩
  · intro c' hc'
    rw [Http.construct, if_neg hk] at hc'
    injection hc' with h
    subst h
    have : Http.stripTrailingSlash (jsOrS none Http.defaultApiUrl)
        = Http.defaultApiUrl := by decide
    simp [this]
  · intro op
    cases op with
    | get coll q o => exact ⟨"/storages/data/find", rfl, by decide⟩
    | getAll coll o => exact ⟨"/storages/data/findAll", rfl, by decide⟩
    | insert coll docs => exact ⟨"/storages/data/insert", rfl, by decide⟩
    | update coll q uu => exact ⟨"/storages/data/update", rfl, by decide⟩
    | delete coll q => exact ⟨"/storages/data/delete", rfl, by decide⟩

/-- Concrete instantiation of `c10_url_base_amended`: an override with one
trailing slash is stored stripped. -/
theorem c10_url_base_amended_witness :
    (("key" : String) ≠ "" ∧ ("http://localhost:3000/api/" : String) ≠ "" ∧
      (Http.construct (some "key")
          ⟨some "http://localhost:3000/api/", some "development"⟩).fst
        = .ok ⟨"key", "http://localhost:3000/api", none, none, false, 0⟩) ∧
    ((⟨"key", "http://localhost:3000/api", none, none, false, 0⟩ : Http.Client).apiUrl
        = Http.stripTrailingSlash "http://localhost:3000/api/" ∧
      (∀ c', (Http.construct (some "key") ⟨none, some "development"⟩).fst = .ok c' →
        c'.apiUrl = Http.defaultApiUrl) ∧
      (∀ op, ∃ p,
        (Http.opRequest ⟨"key", "http://localhost:3000/api", none, none, false, 0⟩ op).url
          = (⟨"key", "http://localhost:3000/api", none, none, false, 0⟩ : Http.Client).apiUrl ++ p ∧
        p.data.head? = some '/') ∧
      (Http.validationRequest ⟨"key", "http://localhost:3000/api", none, none, false, 0⟩).url
        = (⟨"key", "http://localhost:3000/api", none, none, false, 0⟩ : Http.Client).apiUrl
          ++ "/storages/validate-key" ∧
      ("/storages/validate-key" : String).data.head? = some '/') :=
  ⟨⟨by decide, by decide, rfl⟩,
    c10_url_base_amended "key" "http://localhost:3000/api/" (some "development")
      ⟨"key", "http://localhost:3000/api", none, none, false, 0⟩
      (by decide) (by decide) rfl⟩

/-- Every error `_validateKey` can reject with starts with the validation
failure marker. -/
theorem validateKeyOutcome_error_shape (vnet : Http.VNet) (m : String)
    (h : Http.validateKeyOutcome vnet = .error m) :
    ∃ reason, m = "API key validation failed: " ++ reason := by
  cases vnet with
  | resp success sid db =>
    cases success with
    | true => exact absurd h (by simp [Http.validateKeyOutcome])
    | false =>
      refine ⟨"Invalid API key", ?_⟩
      simp [Http.validateKeyOutcome] at h
      exact h.symm
  | err respMsg msg =>
    refine ⟨jsOrS respMsg msg, ?_⟩
    simp [Http.validateKeyOutcome] at h
    exact h.symm

/-- C1: with the handshake not yet marked validated, for any settlement of
the validation promise and any network behaviour, (a) every store request in
the trace of a gated operation occurs strictly after the await of the
validation promise — no request reaches the backing store while validation
is pending; and (b) if the handshake rejected, the operation emits NO store
request at all and fails with a validation error (the per-operation prefix
followed by the original validation failure message). -/
theorem c1_gating_no_request_while_pending (c : Http.Client) (op : Http.OpCall)
    (vnet : Http.VNet) (net : Http.OpNet) (hv : c.validated = false) :
    (∀ k r,
      (Http.opTrace c ((Http.validateKeyOutcome vnet).map fun _ => ()) op net).get? k
          = some (Http.Step.storeRequest r) →
      ∃ j, j < k ∧
        (Http.opTrace c ((Http.validateKeyOutcome vnet).map fun _ => ()) op net).get? j
          = some (Http.Step.awaitValidation c.promiseId)) ∧
    (∀ m, Http.validateKeyOutcome vnet = .error m →
      (∀ r, Http.Step.storeRequest r
          ∉ Http.opTrace c ((Http.validateKeyOutcome vnet).map fun _ => ()) op net) ∧
      ∃ reason,
        Http.opResult c ((Http.validateKeyOutcome vnet).map fun _ => ()) op net
          = .error (Http.opFailPrefix op
              ++ ("API key validation failed: " ++ reason))) := by
  rcases hout : Http.validateKeyOutcome vnet with m | v <;> simp only [Except.map]
  · -- the handshake rejected with message m
    have htr : Http.opTrace c (.error m) op net
        = [Http.Step.awaitValidation c.promiseId] := by
      simp [Http.opTrace, Http.opRun, Http.ensureOutcome, Http.ensureSteps, hv]
    constructor
    · intro k r hk
      rw [htr] at hk
      rcases k with _ | k
      · exact Http.Step.noConfusion (Option.some.inj hk)
      · exact Option.noConfusion hk
    · intro m' _
      obtain ⟨reason, hre⟩ := validateKeyOutcome_error_shape vnet m hout
      subst hre
      constructor
      · intro r hmem
        rw [htr] at hmem
        have h := List.mem_singleton.mp hmem
        cases h
      · refine ⟨reason, ?_⟩
        simp [Http.opResult, Http.opRun, Http.ensureOutcome, hv]
  · -- the handshake fulfilled
    have htr : Http.opTrace c (.ok ()) op net
        = [Http.Step.awaitValidation c.promiseId,
            Http.Step.storeRequest (Http.opRequest c op)] := by
      simp [Http.opTrace, Http.opRun, Http.ensureOutcome, Http.ensureSteps, hv]
    constructor
    · intro k r hk
      rw [htr] at hk
      rcases k with _ | k
      · exact Http.Step.noConfusion (Option.some.inj hk)
      · rcases k with _ | k
        · refine ⟨0, Nat.zero_lt_one, ?_⟩
          rw [htr]
          rfl
        · exact Option.noConfusion hk
    · intro m hm
      exact Except.noConfusion hm

/-- Concrete instantiation of `c1_gating_no_request_while_pending`: a fresh
client whose validation call got rejected by the store. -/
theorem c1_gating_no_request_while_pending_witness :
    wClient.validated = false ∧
    ((∀ k r,
      (Http.opTrace wClient
          ((Http.validateKeyOutcome (.resp false "" "")).map fun _ => ())
          (.getAll "users" JSVal.undefined) (.err none "never sent")).get? k
          = some (Http.Step.storeRequest r) →
      ∃ j, j < k ∧
        (Http.opTrace wClient
            ((Http.validateKeyOutcome (.resp false "" "")).map fun _ => ())
            (.getAll "users" JSVal.undefined) (.err none "never sent")).get? j
          = some (Http.Step.awaitValidation wClient.promiseId)) ∧
    (∀ m, Http.validateKeyOutcome (.resp false "" "") = .error m →
      (∀ r, Http.Step.storeRequest r
          ∉ Http.opTrace wClient
              ((Http.validateKeyOutcome (.resp false "" "")).map fun _ => ())
              (.getAll "users" JSVal.undefined) (.err none "never sent")) ∧
      ∃ reason,
        Http.opResult wClient
            ((Http.validateKeyOutcome (.resp false "" "")).map fun _ => ())
            (.getAll "users" JSVal.undefined) (.err none "never sent")
          = .error (Http.opFailPrefix (.getAll "users" JSVal.undefined)
              ++ ("API key validation failed: " ++ reason)))) :=
  ⟨rfl, c1_gating_no_request_while_pending wClient (.getAll "users" JSVal.undefined)
    (.resp false "" "") (.err none "never sent") rfl⟩

/-- Rewriting only matched records is the identity when nothing matches. -/
theorem map_update_of_no_match (filter : Mongo.Doc → Bool)
    (applyU : Mongo.Doc → Mongo.Doc) :
    ∀ docs : List Mongo.Doc, (∀ d ∈ docs, ¬filter d) →
      (docs.map fun d => if filter d then applyU d else d) = docs := by
  intro docs
  induction docs with
  | nil => intro _; rfl
  | cons d rest ih =>
    intro h
    have hd : ¬filter d := h d (List.mem_cons_self d rest)
    have hrest := ih (fun x hx => h x (List.mem_cons_of_mem d hx))
    simp [hd, hrest]

/-- Writing a collection back with its current contents changes nothing. -/
theorem setColl_lookup_self (name : String) :
    ∀ content : Mongo.DbContent,
      Mongo.setColl content name (Mongo.lookupColl content name) = content := by
  intro content
  induction content with
  | nil => rfl
  | cons p rest ih =>
    by_cases hp : p.fst = name
    · have hl : Mongo.lookupColl (p :: rest) name = p.snd := by
        simp [Mongo.lookupColl, List.find?, hp]
      rw [hl]
      simp only [Mongo.setColl, if_pos hp]
      rw [← hp]
    · have hb : (p.fst == name) = false := by
        simpa using hp
      have hl : Mongo.lookupColl (p :: rest) name
          = Mongo.lookupColl rest name := by
        simp [Mongo.lookupColl, List.find?, hb]
      rw [hl]
      simp [Mongo.setColl, hp, ih]

/-- C7: an `update` or `delete` whose filter matches zero records of the
connected database succeeds with zero counts (`matchedCount 0 /
modifiedCount 0`, resp. `deletedCount 0`), leaves the database untouched,
and repeating the very same call yields the very same zero-count result.
Additionally, the HTTP-backed `update` forwards a success response of the
backing store (in particular a zero-count one) untouched — the client has no
error path keyed on zero counts. -/
theorem c7_zero_match_zero_counts (d : Mongo.Driver) (content : Mongo.DbContent)
    (coll : String) (filter : Mongo.Doc → Bool) (applyU : Mongo.Doc → Mongo.Doc)
    (hd : d.db = some content)
    (hz : (Mongo.lookupColl content coll).filter filter = []) :
    Mongo.runDriverOp d (.update coll filter applyU)
      = (.ok (.counts 0 0), [Mongo.DEvent.dbCall "updateMany"], d) ∧
    Mongo.runDriverOp (Mongo.runDriverOp d (.update coll filter applyU)).snd.snd
        (.update coll filter applyU)
      = (.ok (.counts 0 0), [Mongo.DEvent.dbCall "updateMany"], d) ∧
    Mongo.runDriverOp d (.delete coll filter)
      = (.ok (.num 0), [Mongo.DEvent.dbCall "deleteMany"], d) ∧
    Mongo.runDriverOp (Mongo.runDriverOp d (.delete coll filter)).snd.snd
        (.delete coll filter)
      = (.ok (.num 0), [Mongo.DEvent.dbCall "deleteMany"], d) ∧
    (∀ (c : Http.Client) (vout : Except String Unit) (cn : String)
        (q u data : JSVal), c.validated = true →
      Http.opResult c vout (.update cn q u) (.resp true none data) = .ok data) := by
  obtain ⟨cs, cl, db⟩ := d
  cases hd
  have hno : ∀ x ∈ Mongo.lookupColl content coll, ¬filter x :=
    List.filter_eq_nil_iff.mp hz
  have hmap : ((Mongo.lookupColl content coll).map
      fun x => if filter x then applyU x else x) = Mongo.lookupColl content coll :=
    map_update_of_no_match filter applyU _ hno
  have hmod : ((Mongo.lookupColl content coll).filter
      fun x => filter x && decide (applyU x ≠ x)) = [] := by
    refine List.filter_eq_nil_iff.mpr ?_
    intro x hx
    simp [hno x hx]
  have hkeep : ((Mongo.lookupColl content coll).filter
      fun x => !(filter x)) = Mongo.lookupColl content coll := by
    refine List.filter_eq_self.mpr ?_
    intro x hx
    simp [hno x hx]
  have h1 : Mongo.updateManyStore (Mongo.lookupColl content coll) filter applyU
      = (Mongo.lookupColl content coll, 0, 0) := by
    unfold Mongo.updateManyStore
    rw [hmap, hz, hmod]
    rfl
  have h2 : Mongo.deleteManyStore (Mongo.lookupColl content coll) filter
      = (Mongo.lookupColl content coll, 0) := by
    unfold Mongo.deleteManyStore
    rw [hkeep, hz]
    rfl
  have hupd : Mongo.runDriverOp ⟨cs, cl, some content⟩ (.update coll filter applyU)
      = (.ok (.counts 0 0), [Mongo.DEvent.dbCall "updateMany"],
          ⟨cs, cl, some content⟩) := by
    simp [Mongo.runDriverOp, h1, setColl_lookup_self]
  have hdel : Mongo.runDriverOp ⟨cs, cl, some content⟩ (.delete coll filter)
      = (.ok (.num 0), [Mongo.DEvent.dbCall "deleteMany"],
          ⟨cs, cl, some content⟩) := by
    simp [Mongo.runDriverOp, h2, setColl_lookup_self]
  refine ⟨hupd, ?_, hdel, ?_, ?_⟩
  · rw [hupd]
    exact hupd
  · rw [hdel]
    exact hdel
  · intro c vout cn q u data hval
    simp [Http.opResult, Http.opRun, Http.ensureOutcome, hval, Http.opExtract]

/-- Concrete instantiation of `c7_zero_match_zero_counts`: a connected
driver with an empty `users` collection and a filter matching nothing. -/
theorem c7_zero_match_zero_counts_witness :
    ((⟨"mongodb://x/app", some (), some [("users", [])]⟩ : Mongo.Driver).db
        = some [("users", [])] ∧
      (Mongo.lookupColl [("users", [])] "users").filter (fun _ => false) = []) ∧
    (Mongo.runDriverOp ⟨"mongodb://x/app", some (), some [("users", [])]⟩
        (.update "users" (fun _ => false) id)
      = (.ok (.counts 0 0), [Mongo.DEvent.dbCall "updateMany"],
          ⟨"mongodb://x/app", some (), some [("users", [])]⟩) ∧
    Mongo.runDriverOp
        (Mongo.runDriverOp ⟨"mongodb://x/app", some (), some [("users", [])]⟩
          (.update "users" (fun _ => false) id)).snd.snd
        (.update "users" (fun _ => false) id)
      = (.ok (.counts 0 0), [Mongo.DEvent.dbCall "updateMany"],
          ⟨"mongodb://x/app", some (), some [("users", [])]⟩) ∧
    Mongo.runDriverOp ⟨"mongodb://x/app", some (), some [("users", [])]⟩
        (.delete "users" (fun _ => false))
      = (.ok (.num 0), [Mongo.DEvent.dbCall "deleteMany"],
          ⟨"mongodb://x/app", some (), some [("users", [])]⟩) ∧
    Mongo.runDriverOp
        (Mongo.runDriverOp ⟨"mongodb://x/app", some (), some [("users", [])]⟩
          (.delete "users" (fun _ => false))).snd.snd
        (.delete "users" (fun _ => false))
      = (.ok (.num 0), [Mongo.DEvent.dbCall "deleteMany"],
          ⟨"mongodb://x/app", some (), some [("users", [])]⟩) ∧
    (∀ (c : Http.Client) (vout : Except String Unit) (cn : String)
        (q u data : JSVal), c.validated = true →
      Http.opResult c vout (.update cn q u) (.resp true none data) = .ok data)) :=
  ⟨⟨rfl, rfl⟩,
    c7_zero_match_zero_counts ⟨"mongodb://x/app", some (), some [("users", [])]⟩
      [("users", [])] "users" (fun _ => false) id rfl rfl⟩

/-- C8: in the driver-backed variant, every operation invoked while `db` is
unset (never connected, or after disconnect) fails with the not-connected
error, performs no driver/database invocation at all and leaves the state
unchanged; and `disconnect` on an instance with no client is a no-op. -/
theorem c8_not_connected_gate (d : Mongo.Driver) (op : Mongo.DriverOp)
    (hdb : d.db = none) (hcl : d.client = none) :
    Mongo.runDriverOp d op = (.error Mongo.notConnectedMsg, [], d) ∧
    Mongo.disconnect d = (d, []) := by
  obtain ⟨cs, cl, db⟩ := d
  cases hdb
  cases hcl
  refine ⟨?_, rfl⟩
  cases op <;> rfl

/-- Concrete instantiation of `c8_not_connected_gate`: a freshly constructed
driver instance (never connected) rejects `listCollections` and tolerates
`disconnect`. -/
theorem c8_not_connected_gate_witness :
    ((⟨"mongodb://localhost:27017/app", none, none⟩ : Mongo.Driver).db = none ∧
      (⟨"mongodb://localhost:27017/app", none, none⟩ : Mongo.Driver).client = none) ∧
    (Mongo.runDriverOp ⟨"mongodb://localhost:27017/app", none, none⟩ .listCollections
      = (.error Mongo.notConnectedMsg, [],
          ⟨"mongodb://localhost:27017/app", none, none⟩) ∧
    Mongo.disconnect ⟨"mongodb://localhost:27017/app", none, none⟩
      = (⟨"mongodb://localhost:27017/app", none, none⟩, [])) :=
  ⟨⟨rfl, rfl⟩,
    c8_not_connected_gate ⟨"mongodb://localhost:27017/app", none, none⟩
      .listCollections rfl rfl⟩

/-- `_ensureValidated` emits no validation start. -/
theorem countStart_ensureSteps (c : Http.Client) :
    Http.countStart (Http.ensureSteps c) = 0 := by
  unfold Http.ensureSteps
  split
  · rfl
  · rfl

/-- A gated operation emits no validation start. -/
theorem countStart_opTrace (c : Http.Client) (vout : Except String Unit)
    (op : Http.OpCall) (net : Http.OpNet) :
    Http.countStart (Http.opTrace c vout op net) = 0 := by
  unfold Http.opTrace Http.opRun
  rcases h : Http.ensureOutcome c vout with e | u
  · exact countStart_ensureSteps c
  · show Http.countStart (Http.ensureSteps c ++ [_]) = 0
    have h1 := countStart_ensureSteps c
    unfold Http.countStart at h1 ⊢
    rw [List.countP_append, h1]
    rfl

/-- Every await a gated operation performs targets the memoized promise. -/
theorem opTrace_await (c : Http.Client) (vout : Except String Unit)
    (op : Http.OpCall) (net : Http.OpNet) (pid : Nat)
    (h : Http.Step.awaitValidation pid ∈ Http.opTrace c vout op net) :
    pid = c.promiseId := by
  unfold Http.opTrace Http.opRun at h
  rcases ho : Http.ensureOutcome c vout with e | u
  · rw [ho] at h
    have := mem_ensureSteps h
    injection this
  · rw [ho] at h
    rcases List.mem_append.mp h with hl | hr
    · have := mem_ensureSteps hl
      injection this
    · have := List.mem_singleton.mp hr
      cases this

/-- An event never changes the identity of the memoized promise. -/
theorem sysStep_promiseId (s : Http.Sys) (e : Http.SysEvent) :
    ((Http.sysStep s e).fst).c.promiseId = s.c.promiseId := by
  cases e with
  | settle net =>
    rcases hr : s.resolved with _ | out
    · rcases hv : Http.validateKeyOutcome net with m | v
      · simp [Http.sysStep, hr, hv, Http.settleClient]
      · obtain ⟨sid, db⟩ := v
        simp [Http.sysStep, hr, hv, Http.settleClient]
    · simp [Http.sysStep, hr]
  | runOp op net =>
    rcases hr : s.resolved with _ | out <;> simp [Http.sysStep, hr]

/-- No event ever emits a validation start: only the constructor does. -/
theorem sysStep_countStart (s : Http.Sys) (e : Http.SysEvent) :
    Http.countStart (Http.sysStep s e).snd = 0 := by
  cases e with
  | settle net =>
    rcases hr : s.resolved with _ | out <;> simp [Http.sysStep, hr, Http.countStart]
  | runOp op net =>
    rcases hr : s.resolved with _ | out
    · simp only [Http.sysStep, hr]
      exact countStart_ensureSteps s.c
    · simp only [Http.sysStep, hr]
      exact countStart_opTrace s.c out op net

/-- Every await emitted by an event targets the memoized promise. -/
theorem sysStep_await (s : Http.Sys) (e : Http.SysEvent) (pid : Nat)
    (h : Http.Step.awaitValidation pid ∈ (Http.sysStep s e).snd) :
    pid = s.c.promiseId := by
  cases e with
  | settle net =>
    rcases hr : s.resolved with _ | out <;> rw [Http.sysStep] at h <;>
      simp only [hr] at h <;> exact absurd h (List.not_mem_nil _)
  | runOp op net =>
    rcases hr : s.resolved with _ | out
    · rw [Http.sysStep] at h
      simp only [hr] at h
      have := mem_ensureSteps h
      injection this
    · rw [Http.sysStep] at h
      simp only [hr] at h
      exact opTrace_await s.c out op net pid h

/-- Event sequences never change the identity of the memoized promise. -/
theorem sysRun_promiseId (evs : List Http.SysEvent) :
    ∀ s : Http.Sys, ((Http.sysRun s evs).fst).c.promiseId = s.c.promiseId := by
  induction evs with
  | nil => intro s; rfl
  | cons e es ih =>
    intro s
    show ((Http.sysRun (Http.sysStep s e).fst es).fst).c.promiseId = s.c.promiseId
    rw [ih, sysStep_promiseId]

/-- Event sequences never emit a validation start. -/
theorem sysRun_countStart (evs : List Http.SysEvent) :
    ∀ s : Http.Sys, Http.countStart (Http.sysRun s evs).snd = 0 := by
  induction evs with
  | nil => intro s; rfl
  | cons e es ih =>
    intro s
    show Http.countStart ((Http.sysStep s e).snd ++ (Http.sysRun _ es).snd) = 0
    unfold Http.countStart at *
    rw [List.countP_append]
    have h1 := sysStep_countStart s e
    unfold Http.countStart at h1
    rw [h1, ih]

/-- Every await emitted along an event sequence targets the memoized promise. -/
theorem sysRun_await (evs : List Http.SysEvent) :
    ∀ (s : Http.Sys) (pid : Nat),
      Http.Step.awaitValidation pid ∈ (Http.sysRun s evs).snd →
      pid = s.c.promiseId := by
  induction evs with
  | nil =>
    intro s pid h
    exact absurd h (List.not_mem_nil _)
  | cons e es ih =>
    intro s pid h
    have h' : Http.Step.awaitValidation pid
        ∈ (Http.sysStep s e).snd ++ (Http.sysRun (Http.sysStep s e).fst es).snd := h
    rcases List.mem_append.mp h' with hl | hr
    · exact sysStep_await s e pid hl
    · have := ih (Http.sysStep s e).fst pid hr
      rw [this, sysStep_promiseId]

/-- C2: for every client the constructor returns, the validation handshake
is started exactly once — by the constructor itself, which returns without
waiting for the outcome (`validated` is still false on return) — and no
event sequence whatsoever (any number of operations issued before or after
the settlement, in any order) ever starts another validation; every await
ever performed targets the single memoized promise created at construction. -/
theorem c2_validation_exactly_once (k : String) (opts : Http.HttpOptions)
    (c : Http.Client) (t0 : List Http.Step) (evs : List Http.SysEvent)
    (hk : k ≠ "") (hc : Http.construct (some k) opts = (.ok c, t0)) :
    t0 = [Http.Step.startValidation 0 (Http.validationRequest c)] ∧
    c.validated = false ∧ c.promiseId = 0 ∧
    Http.countStart (t0 ++ (Http.sysRun (Http.initSys c) evs).snd) = 1 ∧
    (∀ pid, Http.Step.awaitValidation pid
        ∈ t0 ++ (Http.sysRun (Http.initSys c) evs).snd → pid = 0) := by
  rw [Http.construct, if_neg hk] at hc
  rw [Prod.mk.injEq] at hc
  obtain ⟨hc1, hc2⟩ := hc
  injection hc1 with hc1
  subst hc1
  subst hc2
  refine ⟨rfl, rfl, rfl, ?_, ?_⟩
  · have h := sysRun_countStart evs
    unfold Http.countStart at h ⊢
    rw [List.countP_append, h]
    rfl
  · intro pid hmem
    rcases List.mem_append.mp hmem with hl | hr
    · have := List.mem_singleton.mp hl
      cases this
    · exact sysRun_await evs _ pid hr

/-- Concrete instantiation of `c2_validation_exactly_once`: a client built
from a non-empty key, with one operation issued while pending, then the
settlement, then another operation. -/
theorem c2_validation_exactly_once_witness :
    (("k" : String) ≠ "" ∧
      Http.construct (some "k") ⟨none, none⟩
        = (.ok wClient, [Http.Step.startValidation 0 (Http.validationRequest wClient)])) ∧
    ([Http.Step.startValidation 0 (Http.validationRequest wClient)]
        = [Http.Step.startValidation 0 (Http.validationRequest wClient)] ∧
      wClient.validated = false ∧ wClient.promiseId = 0 ∧
      Http.countStart ([Http.Step.startValidation 0 (Http.validationRequest wClient)]
        ++ (Http.sysRun (Http.initSys wClient)
            [.runOp (.get "users" JSVal.undefined JSVal.undefined) (.err none "x"),
              .settle (.resp true "sid" "db-development"),
              .runOp (.getAll "users" JSVal.undefined) (.resp true none JSVal.undefined)]).snd) = 1 ∧
      (∀ pid, Http.Step.awaitValidation pid
          ∈ [Http.Step.startValidation 0 (Http.validationRequest wClient)]
            ++ (Http.sysRun (Http.initSys wClient)
              [.runOp (.get "users" JSVal.undefined JSVal.undefined) (.err none "x"),
                .settle (.resp true "sid" "db-development"),
                .runOp (.getAll "users" JSVal.undefined) (.resp true none JSVal.undefined)]).snd →
        pid = 0)) :=
  ⟨⟨by decide, rfl⟩,
    c2_validation_exactly_once "k" ⟨none, none⟩ wClient
      [Http.Step.startValidation 0 (Http.validationRequest wClient)]
      [.runOp (.get "users" JSVal.undefined JSVal.undefined) (.err none "x"),
        .settle (.resp true "sid" "db-development"),
        .runOp (.getAll "users" JSVal.undefined) (.resp true none JSVal.undefined)]
      (by decide) rfl⟩

/-- Once the memoized promise has settled, no event changes the instance
state at all: the settle branch is a no-op on a settled promise and
operations never write instance fields. -/
theorem sysStep_settled_fix (s : Http.Sys) (out : Except String Unit)
    (e : Http.SysEvent) (h : s.resolved = some out) :
    (Http.sysStep s e).fst = s := by
  cases e with
  | settle net => simp [Http.sysStep, h]
  | runOp op net => simp [Http.sysStep, h]

/-- Once the memoized promise has settled, the instance state is frozen
under every further event sequence. -/
theorem sysRun_settled_fix (evs : List Http.SysEvent) (s : Http.Sys)
    (out : Except String Unit) (h : s.resolved = some out) :
    (Http.sysRun s evs).fst = s := by
  induction evs with
  | nil => rfl
  | cons e es ih =>
    show (Http.sysRun (Http.sysStep s e).fst es).fst = s
    rw [sysStep_settled_fix s out e h]
    exact ih

/-- While the promise is pending, the resolved identity fields remain unset:
one event preserves this invariant. -/
theorem sysStep_pending_unset (s : Http.Sys) (e : Http.SysEvent)
    (h : s.resolved = none → s.c.storageId = none ∧ s.c.databaseName = none) :
    (Http.sysStep s e).fst.resolved = none →
      (Http.sysStep s e).fst.c.storageId = none ∧
      (Http.sysStep s e).fst.c.databaseName = none := by
  cases e with
  | settle net =>
    rcases hr : s.resolved with _ | out
    · rcases hv : Http.validateKeyOutcome net with m | v
      · intro _
        simp only [Http.sysStep, hr, hv]
        exact h hr
      · simp [Http.sysStep, hr, hv]
    · simp only [Http.sysStep, hr]
      intro hx
      exact Option.noConfusion hx
  | runOp op net =>
    rcases hr : s.resolved with _ | out
    · simp only [Http.sysStep, hr]
      intro _
      exact h hr
    · simp only [Http.sysStep, hr]
      intro hx
      exact Option.noConfusion hx

/-- While the promise is pending, the resolved identity fields remain unset:
every event sequence preserves this invariant. -/
theorem sysRun_pending_unset (evs : List Http.SysEvent) :
    ∀ s : Http.Sys,
      (s.resolved = none → s.c.storageId = none ∧ s.c.databaseName = none) →
      (Http.sysRun s evs).fst.resolved = none →
        (Http.sysRun s evs).fst.c.storageId = none ∧
        (Http.sysRun s evs).fst.c.databaseName = none := by
  induction evs with
  | nil => intro s h; exact h
  | cons e es ih =>
    intro s h
    exact ih (Http.sysStep s e).fst (sysStep_pending_unset s e h)

/-- C6: the resolved identity (`storageId`, `databaseName`) is write-once
and the settled validation states are terminal. For every constructed
client: (a) both fields start unset and the state is unvalidated; (b) under
any event sequence, as long as the handshake has not settled both fields are
still unset; (c) a successful settlement of a pending handshake writes both
fields (and the settled status); (d) once the handshake has settled —
validated or failed — NO further event sequence changes the instance state
at all (fields never reassigned, settlement never overwritten: no reset, no
retry); and (e) no event sequence ever starts a new validation handshake. -/
theorem c6_write_once_terminal (k : String) (opts : Http.HttpOptions)
    (c : Http.Client) (t0 : List Http.Step)
    (hk : k ≠ "") (hc : Http.construct (some k) opts = (.ok c, t0)) :
    (c.storageId = none ∧ c.databaseName = none ∧ c.validated = false) ∧
    (∀ evs, (Http.sysRun (Http.initSys c) evs).fst.resolved = none →
      (Http.sysRun (Http.initSys c) evs).fst.c.storageId = none ∧
      (Http.sysRun (Http.initSys c) evs).fst.c.databaseName = none) ∧
    (∀ (s : Http.Sys) (sid db : String), s.resolved = none →
      (Http.sysStep s (.settle (.resp true sid db))).fst.c.storageId = some sid ∧
      (Http.sysStep s (.settle (.resp true sid db))).fst.c.databaseName = some db ∧
      (Http.sysStep s (.settle (.resp true sid db))).fst.resolved = some (.ok ())) ∧
    (∀ (s : Http.Sys) (out : Except String Unit) (evs : List Http.SysEvent),
      s.resolved = some out → (Http.sysRun s evs).fst = s) ∧
    (∀ evs, Http.countStart (Http.sysRun (Http.initSys c) evs).snd = 0) := by
  rw [Http.construct, if_neg hk] at hc
  rw [Prod.mk.injEq] at hc
  obtain ⟨hc1, _⟩ := hc
  injection hc1 with hc1
  subst hc1
  refine ⟨⟨rfl, rfl, rfl⟩, ?_, ?_, ?_, ?_⟩
  · intro evs
    exact sysRun_pending_unset evs _ (fun _ => ⟨rfl, rfl⟩)
  · intro s sid db h
    simp [Http.sysStep, h, Http.validateKeyOutcome, Http.settleClient, Except.map]
  · intro s out evs h
    exact sysRun_settled_fix evs s out h
  · intro evs
    exact sysRun_countStart evs _

/-- Concrete instantiation of `c6_write_once_terminal` for a client built
from a non-empty key. -/
theorem c6_write_once_terminal_witness :
    (("k" : String) ≠ "" ∧
      Http.construct (some "k") ⟨none, none⟩
        = (.ok wClient, [Http.Step.startValidation 0 (Http.validationRequest wClient)])) ∧
    ((wClient.storageId = none ∧ wClient.databaseName = none ∧
        wClient.validated = false) ∧
    (∀ evs, (Http.sysRun (Http.initSys wClient) evs).fst.resolved = none →
      (Http.sysRun (Http.initSys wClient) evs).fst.c.storageId = none ∧
      (Http.sysRun (Http.initSys wClient) evs).fst.c.databaseName = none) ∧
    (∀ (s : Http.Sys) (sid db : String), s.resolved = none →
      (Http.sysStep s (.settle (.resp true sid db))).fst.c.storageId = some sid ∧
      (Http.sysStep s (.settle (.resp true sid db))).fst.c.databaseName = some db ∧
      (Http.sysStep s (.settle (.resp true sid db))).fst.resolved = some (.ok ())) ∧
    (∀ (s : Http.Sys) (out : Except String Unit) (evs : List Http.SysEvent),
      s.resolved = some out → (Http.sysRun s evs).fst = s) ∧
    (∀ evs, Http.countStart (Http.sysRun (Http.initSys wClient) evs).snd = 0)) :=
  ⟨⟨by decide, rfl⟩,
    c6_write_once_terminal "k" ⟨none, none⟩ wClient
      [Http.Step.startValidation 0 (Http.validationRequest wClient)]
      (by decide) rfl⟩
